import Mathlib

/-!
Shallow embedding of the TechCrunch summarizer script (the variant with the
DeepL translation stage). Network effects are modelled by outcome oracles:
the result of each concurrent request is an input of the function that
issues it, indexed by the position of the request in its batch. Promises
are settled values; `Promise.allSettled` becomes an index-ordered list of
outcomes, and `Promise.all` over never-rejecting promises becomes `List.map`.
JavaScript's `undefined`/`null`/string trichotomy for the `summary` field is
kept explicit, because the non-null assertion `content!` can let `null`
through at runtime.
-/

namespace TCSum

/-- Errors of the script. `caught` stands for an arbitrary exception object
caught by a `try/catch` and returned as-is; `errorMsg` for `new Error(msg)`;
`deepLApiError` for the error built at a non-2xx DeepL response, carrying the
parsed diagnostic body as its `cause`. -/
inductive JSError where
  | caught
  | errorMsg (message : String)
  | deepLApiError (cause : List String)
deriving DecidableEq, Repr

/-- Discriminated union `{error} | {data}` used throughout the script. -/
inductive Result (α : Type) where
  | error (e : JSError)
  | data (d : α)
deriving DecidableEq, Repr

/-- Process environment as seen by `loadEnv`: each variable may be absent. -/
structure ProcEnv where
  OPEN_AI_API_KEY : Option String
  DEEPL_API_AUTH_KEY : Option String
  DISCORD_WEBHOOK_URL : Option String
deriving DecidableEq, Repr

/-- Validated environment returned by `loadEnv`. -/
structure Env where
  OPEN_AI_API_KEY : String
  DEEPL_API_AUTH_KEY : String
  DISCORD_WEBHOOK_URL : Option String
deriving DecidableEq, Repr

/-- Feed entry: `{ title, link, pubDate }` with `pubDate` a raw string. -/
structure FeedArticle where
  title : String
  link : String
  pubDate : String
deriving DecidableEq, Repr

/-- JavaScript value held in the `summary` field. The declared type is
`string | undefined`, but the non-null assertion on the completion content
can let `null` through, so the embedding keeps all three cases. -/
inductive JSStr where
  | undef
  | null
  | str (s : String)
deriving DecidableEq, Repr

/-- Summarized article: `pubDate` is `new Date(p).getTime()` modelled as
`Option Int` (`none` is an Invalid Date / NaN instant). -/
structure SummarizedArticle where
  title : String
  link : String
  pubDate : Option Int
  summary : JSStr
deriving DecidableEq, Repr

def ONE_DAY_MS : Int := 24 * 60 * 60 * 1000

def SYSTEM_PROMPT : String :=
  "You\x27re an IT-savvy journalist. Summarize news in around 100 words without title."

/-- Chat message sent to the completion service. -/
structure ChatMessage where
  role : String
  content : String
deriving DecidableEq, Repr

/-- Builds the two-message prompt (typo in the name kept from the source). -/
def buildMessageWithAritcleUrl (url : String) : List ChatMessage :=
  [⟨"system", SYSTEM_PROMPT⟩, ⟨"user", url⟩]

/-- Reads the two required credentials and the optional webhook URL from the
process environment; errors when a required one is `undefined`. -/
def loadEnv (penv : ProcEnv) : Result Env :=
  match penv.OPEN_AI_API_KEY, penv.DEEPL_API_AUTH_KEY with
  | some o, some d => .data ⟨o, d, penv.DISCORD_WEBHOOK_URL⟩
  | _, _ => .error (.errorMsg "lack required envinronment variables")

/-- Predicate of the recency filter: `new Date(item.pubDate).getTime() >
nowMs - ONE_DAY_MS`, where an unparsable date yields NaN and NaN compares
false against any bound (modelled by `parseDate _ = none ↦ false`). -/
def recentPred (nowMs : Int) (parseDate : String → Option Int)
    (item : FeedArticle) : Bool :=
  match parseDate item.pubDate with
  | some t => decide (t > nowMs - ONE_DAY_MS)
  | none => false

/-- Outcome of the feed fetch/parse: either the whole `try` block threw, or
it produced the parsed `rss.channel.item` list. -/
inductive FeedOutcome where
  | failure
  | success (items : List FeedArticle)

/-- Fetches the feed, filters entries published in the last 24 hours and
re-packs each kept item as `{ title, link, pubDate }`. -/
def fetchYesterdayArticlesFromTechCrunch (nowMs : Int)
    (parseDate : String → Option Int) (outcome : FeedOutcome) :
    Result (List FeedArticle) :=
  match outcome with
  | .failure => .error .caught
  | .success items =>
      .data ((items.filter (recentPred nowMs parseDate)).map
        (fun item => { title := item.title, link := item.link, pubDate := item.pubDate }))

/-- Settled outcome of one completion request. `fulfilled content` carries
`completion.choices[0].message.content`, which the API types as
`string | null`; the source applies a non-null assertion to it, which has no
runtime effect, so the `none` (null) case flows through. -/
inductive ReqOutcome where
  | rejected
  | fulfilled (content : Option String)
deriving DecidableEq, Repr

def defaultFeedArticle : FeedArticle := ⟨"", "", ""⟩

def defaultSummarized : SummarizedArticle := ⟨"", "", none, .undef⟩

/-- Requests the summarizer issues: one completion request per article,
with the prompt built from the article's link. -/
def summarizeRequests (articles : List FeedArticle) : List (List ChatMessage) :=
  articles.map (fun article => buildMessageWithAritcleUrl article.link)

/-- One entry of the `summaries.map((summarized, index) => ...)` body:
on rejection the summary is the explicit `undefined` sentinel, on
fulfillment it is the (unvalidated) content value. -/
def summarizeItem (parseDate : String → Option Int) (article : FeedArticle)
    (outcome : ReqOutcome) : SummarizedArticle :=
  match outcome with
  | .rejected =>
      { title := article.title, link := article.link,
        pubDate := parseDate article.pubDate, summary := .undef }
  | .fulfilled content =>
      { title := article.title, link := article.link,
        pubDate := parseDate article.pubDate,
        summary := match content with | some s => .str s | none => .null }

/-- Summarizer batch. The source awaits `Promise.allSettled` over one promise
per article (so the settled list has exactly `articles.length` entries, entry
`index` being the outcome of the request for `articles[index]`), then maps
each settled result back to its article by index. `Promise.allSettled` never
rejects and the mapping callback is total, so the surrounding `catch` is dead
and the batch result is always the `data` variant. -/
def summarize (parseDate : String → Option Int) (oracle : Nat → ReqOutcome)
    (articles : List FeedArticle) : Result (List SummarizedArticle) :=
  let summaries := (List.range articles.length).map oracle
  let summarizedArticles := (List.range summaries.length).map (fun index =>
    summarizeItem parseDate (articles.getD index defaultFeedArticle)
      (summaries.getD index .rejected))
  .data summarizedArticles

/-- Parsed JSON body of a translation response: `unreadable` when
`res.json()` itself throws (opaque / non-readable body), otherwise the list
of translated texts (`translations[i].text`). -/
inductive JsonBody where
  | unreadable
  | value (translations : List String)
deriving DecidableEq, Repr

/-- Outcome of one translation `fetch`: the transport threw, or a response
arrived with an `ok` flag and a body. -/
inductive FetchOutcome where
  | netError
  | response (ok : Bool) (body : JsonBody)
deriving DecidableEq, Repr

/-- Translation call. Every branch of the `try` block that throws (transport
error, non-readable body on either the error or the success path, missing
`translations[0]`) is caught and returned as the `error` variant; a non-2xx
response with a readable body becomes the named DeepL API error carrying the
body as cause; otherwise the first translated text is returned. -/
def translate (authKey text targetLang : String) (outcome : FetchOutcome) :
    Result String :=
  match outcome with
  | .netError => .error .caught
  | .response ok body =>
      if ok = false then
        match body with
        | .unreadable => .error .caught
        | .value cause => .error (.deepLApiError cause)
      else
        match body with
        | .unreadable => .error .caught
        | .value [] => .error .caught
        | .value (t :: _) => .data t

/-- Body of the per-article lambda of the translation stage in `main`: an
article whose summary is loosely equal to null (`undefined` or `null`) is
returned unchanged; otherwise its summary is translated, keeping the original
on failure and substituting the translated text on success. -/
def translateItem (authKey : String) (outcome : FetchOutcome)
    (article : SummarizedArticle) : SummarizedArticle :=
  match article.summary with
  | .undef => article
  | .null => article
  | .str s =>
      match translate authKey s "ja" outcome with
      | .error _ => article
      | .data t => { article with summary := .str t }

/-- Translation stage of `main`: one promise per summarized article, joined
with `Promise.all`. Each promise resolves (the lambda handles both result
variants of `translate`), so the join always yields a list of the same
length in input order. -/
def translateStage (authKey : String) (tOracle : Nat → FetchOutcome)
    (articles : List SummarizedArticle) : List SummarizedArticle :=
  (List.range articles.length).map (fun index =>
    translateItem authKey (tOracle index) (articles.getD index defaultSummarized))

/-- Translation request issued for one article of the stage, when any:
articles with a present (string) summary trigger one request carrying the
summary text and the fixed target language. -/
def translateItemRequest (article : SummarizedArticle) : Option (String × String) :=
  match article.summary with
  | .str s => some (s, "ja")
  | _ => none

/-- Requests issued by the translation stage, in input order. -/
def translateStageRequests (articles : List SummarizedArticle) :
    List (String × String) :=
  articles.filterMap translateItemRequest

/-- Rendering of a summary value inside a JS template literal. -/
def jsStrInterp : JSStr → String
  | .undef => "undefined"
  | .null => "null"
  | .str s => s

/-- Message content posted to the webhook for one article. `dateFmt` models
`pubDate.toLocaleString("ja-JP", ...)`. -/
def notifyContent (dateFmt : Option Int → String)
    (article : SummarizedArticle) : String :=
  "[" ++ article.title ++ "](" ++ article.link ++ ") - Posted at " ++
    dateFmt article.pubDate ++ "\n" ++ jsStrInterp article.summary

/-- Network request issued during a run, in issue order. -/
inductive NetRequest where
  | feedFetch
  | completion (messages : List ChatMessage)
  | translation (text : String) (targetLang : String)
  | webhookPost (url : String) (content : String)
deriving DecidableEq, Repr

/-- Observable trace of one run of `main`: the exit code, every network
request issued, the article list printed at the end, and the articles handed
to the Discord notifier. -/
structure MainTrace where
  exitCode : Nat
  requests : List NetRequest
  printed : List SummarizedArticle
  notified : List SummarizedArticle
deriving DecidableEq, Repr

/-- The orchestrator. Mirrors `main()`: load env (exit 1 before any request
when a required credential is missing), fetch and filter the feed (exit 1 on
failure), summarize (exit 1 if the batch itself errors), translate each
summary, print the translated list, then, when a webhook URL is configured,
post one message per article of the summarizer output (`summarizeResult.data`
is what the source maps over at the notification step), exiting 1 when any
notification promise rejects. -/
def main (penv : ProcEnv) (nowMs : Int) (parseDate : String → Option Int)
    (feedOutcome : FeedOutcome) (sumOracle : Nat → ReqOutcome)
    (trOracle : Nat → FetchOutcome) (notifyOk : Nat → Bool)
    (dateFmt : Option Int → String) : MainTrace :=
  match loadEnv penv with
  | .error _ => { exitCode := 1, requests := [], printed := [], notified := [] }
  | .data env =>
      match fetchYesterdayArticlesFromTechCrunch nowMs parseDate feedOutcome with
      | .error _ => { exitCode := 1, requests := [.feedFetch], printed := [], notified := [] }
      | .data articles =>
          match summarize parseDate sumOracle articles with
          | .error _ =>
              { exitCode := 1,
                requests := .feedFetch :: (summarizeRequests articles).map .completion,
                printed := [], notified := [] }
          | .data summarized =>
              let translated := translateStage env.DEEPL_API_AUTH_KEY trOracle summarized
              let baseRequests := .feedFetch ::
                ((summarizeRequests articles).map .completion ++
                  (translateStageRequests summarized).map (fun r => .translation r.1 r.2))
              match env.DISCORD_WEBHOOK_URL with
              | none =>
                  { exitCode := 0, requests := baseRequests,
                    printed := translated, notified := [] }
              | some url =>
                  { exitCode := if (List.range summarized.length).all notifyOk then 0 else 1,
                    requests := baseRequests ++
                      summarized.map (fun article =>
                        .webhookPost url (notifyContent dateFmt article)),
                    printed := translated,
                    notified := summarized }

/-- Webhook posts contained in a request trace, in order. -/
def webhookPosts : List NetRequest → List (String × String)
  | [] => []
  | .webhookPost url content :: rest => (url, content) :: webhookPosts rest
  | .feedFetch :: rest => webhookPosts rest
  | .completion _ :: rest => webhookPosts rest
  | .translation _ _ :: rest => webhookPosts rest

/-! Shared lemmas about the embedding. -/

/-- Element of a range-indexed map, with a default. -/
theorem range_map_getD {α : Type} {n : Nat} (f : Nat → α) (i : Nat) (d : α)
    (h : i < n) : ((List.range n).map f).getD i d = f i := by
  have hl : i < ((List.range n).map f).length := by simpa using h
  rw [List.getD_eq_getElem _ _ hl]
  simp

/-- Payload of the summarizer batch, as a pure list. -/
def summarizeOut (parseDate : String → Option Int) (oracle : Nat → ReqOutcome)
    (articles : List FeedArticle) : List SummarizedArticle :=
  (List.range articles.length).map (fun index =>
    summarizeItem parseDate (articles.getD index defaultFeedArticle) (oracle index))

/-- The summarizer always returns the data variant, carrying `summarizeOut`. -/
theorem summarize_eq (parseDate : String → Option Int) (oracle : Nat → ReqOutcome)
    (articles : List FeedArticle) :
    summarize parseDate oracle articles = .data (summarizeOut parseDate oracle articles) := by
  unfold summarize summarizeOut
  dsimp only
  congr 1
  have hlen : ((List.range articles.length).map oracle).length = articles.length := by simp
  rw [hlen]
  apply List.map_congr_left
  intro i hi
  have hi' : i < articles.length := List.mem_range.mp hi
  rw [range_map_getD oracle i .rejected hi']

theorem summarizeOut_length (parseDate : String → Option Int) (oracle : Nat → ReqOutcome)
    (articles : List FeedArticle) :
    (summarizeOut parseDate oracle articles).length = articles.length := by
  simp [summarizeOut]

theorem summarizeOut_getD (parseDate : String → Option Int) (oracle : Nat → ReqOutcome)
    (articles : List FeedArticle) (i : Nat) (h : i < articles.length) :
    (summarizeOut parseDate oracle articles).getD i defaultSummarized
      = summarizeItem parseDate (articles.getD i defaultFeedArticle) (oracle i) := by
  unfold summarizeOut
  exact range_map_getD _ i _ h

theorem translateStage_length (authKey : String) (tOracle : Nat → FetchOutcome)
    (articles : List SummarizedArticle) :
    (translateStage authKey tOracle articles).length = articles.length := by
  simp [translateStage]

theorem translateStage_getD (authKey : String) (tOracle : Nat → FetchOutcome)
    (articles : List SummarizedArticle) (i : Nat) (h : i < articles.length) :
    (translateStage authKey tOracle articles).getD i defaultSummarized
      = translateItem authKey (tOracle i) (articles.getD i defaultSummarized) := by
  unfold translateStage
  exact range_map_getD _ i _ h

theorem webhookPosts_append (l l' : List NetRequest) :
    webhookPosts (l ++ l') = webhookPosts l ++ webhookPosts l' := by
  induction l with
  | nil => rfl
  | cons x rest ih => cases x <;> simp [webhookPosts, ih]

theorem webhookPosts_map_completion (l : List (List ChatMessage)) :
    webhookPosts (l.map NetRequest.completion) = [] := by
  induction l with
  | nil => rfl
  | cons x rest ih => simpa [webhookPosts] using ih

theorem webhookPosts_map_translation (l : List (String × String)) :
    webhookPosts (l.map (fun r => NetRequest.translation r.1 r.2)) = [] := by
  induction l with
  | nil => rfl
  | cons x rest ih => simpa [webhookPosts] using ih

theorem webhookPosts_map_post (url : String) (f : SummarizedArticle → String)
    (l : List SummarizedArticle) :
    webhookPosts (l.map (fun a => NetRequest.webhookPost url (f a)))
      = l.map (fun a => (url, f a)) := by
  induction l with
  | nil => rfl
  | cons x rest ih => simp [webhookPosts, ih]

/-! Claim theorems. -/

/-- C1: if exactly one of the N per-article completion requests fails
(index `k` rejected, every other index fulfilled with a text), `summarize`
returns the data variant with exactly N articles, the article at `k` has the
absent (`undefined`) summary, and every other article carries the text its
successful request returned, keeping its title and link; the batch result is
never the error variant. -/
theorem summarize_isolation (parseDate : String → Option Int)
    (oracle : Nat → ReqOutcome) (articles : List FeedArticle) (k : Nat)
    (hk : k < articles.length) (hfail : oracle k = .rejected)
    (hsucc : ∀ i, i < articles.length → i ≠ k → ∃ s, oracle i = .fulfilled (some s)) :
    ∃ out, summarize parseDate oracle articles = .data out ∧
      out.length = articles.length ∧
      (out.getD k defaultSummarized).summary = .undef ∧
      ∀ i, i < articles.length → i ≠ k → ∀ s, oracle i = .fulfilled (some s) →
        (out.getD i defaultSummarized).summary = .str s ∧
        (out.getD i defaultSummarized).title = (articles.getD i defaultFeedArticle).title ∧
        (out.getD i defaultSummarized).link = (articles.getD i defaultFeedArticle).link := by
  clear hsucc
  refine ⟨summarizeOut parseDate oracle articles, summarize_eq parseDate oracle articles,
    summarizeOut_length parseDate oracle articles, ?_, ?_⟩
  · rw [summarizeOut_getD parseDate oracle articles k hk, hfail]
    rfl
  · intro i hi _hne s hs
    rw [summarizeOut_getD parseDate oracle articles i hi, hs]
    exact ⟨rfl, rfl, rfl⟩

def c1Articles : List FeedArticle := [⟨"A", "http://a", "da"⟩, ⟨"B", "http://b", "db"⟩]

def c1Oracle : Nat → ReqOutcome := fun i => if i = 0 then .rejected else .fulfilled (some "sum")

/-- Witness for C1 at a concrete two-article batch whose first request fails. -/
theorem summarize_isolation_witness :
    ∃ out, summarize (fun _ => some 5) c1Oracle c1Articles = .data out ∧
      out.length = c1Articles.length ∧
      (out.getD 0 defaultSummarized).summary = .undef ∧
      ∀ i, i < c1Articles.length → i ≠ 0 → ∀ s, c1Oracle i = .fulfilled (some s) →
        (out.getD i defaultSummarized).summary = .str s ∧
        (out.getD i defaultSummarized).title = (c1Articles.getD i defaultFeedArticle).title ∧
        (out.getD i defaultSummarized).link = (c1Articles.getD i defaultFeedArticle).link :=
  summarize_isolation (fun _ => some 5) c1Oracle c1Articles 0 (by decide) rfl
    (fun i hi hne => ⟨"sum", by
      have h1 : i = 1 := by
        have : i < 2 := by simpa [c1Articles] using hi
        omega
      subst h1
      rfl⟩)

/-- C2: the summarizer output (always the data variant) has the length of its
input, the translation stage output has the length of its input, and on the
empty input both stages return the empty list and issue zero requests. -/
theorem stage_length_invariant (parseDate : String → Option Int)
    (oracle : Nat → ReqOutcome) (articles : List FeedArticle)
    (authKey : String) (tOracle : Nat → FetchOutcome)
    (sarticles : List SummarizedArticle) :
    (∃ out, summarize parseDate oracle articles = .data out ∧
      out.length = articles.length) ∧
    (translateStage authKey tOracle sarticles).length = sarticles.length ∧
    summarize parseDate oracle ([] : List FeedArticle) = .data [] ∧
    summarizeRequests ([] : List FeedArticle) = [] ∧
    translateStage authKey tOracle ([] : List SummarizedArticle) = [] ∧
    translateStageRequests ([] : List SummarizedArticle) = [] :=
  ⟨⟨summarizeOut parseDate oracle articles, summarize_eq parseDate oracle articles,
      summarizeOut_length parseDate oracle articles⟩,
    translateStage_length authKey tOracle sarticles, rfl, rfl, rfl, rfl⟩

/-- C3 (code bug): a completion request that fulfills with null content is
not validated; the non-null assertion lets the null through, so the article's
summary becomes the null value, which is neither the absent (`undefined`)
sentinel of a recorded item failure nor a string. -/
theorem summarize_null_content_unvalidated :
    summarize (fun _ => some 0) (fun _ => .fulfilled none)
        [⟨"A", "http://x", "d"⟩]
      = .data [⟨"A", "http://x", some 0, .null⟩] ∧
    (JSStr.null ≠ JSStr.undef) ∧ (∀ s, JSStr.null ≠ JSStr.str s) := by
  refine ⟨rfl, by decide, fun s h => by cases h⟩

/-- C5: an article entering the translation stage with a present summary
whose translation request fails keeps its original summary unchanged (the
whole article is returned as-is), and the stage still returns a full-length
batch. -/
theorem translate_fallback (authKey : String) (tOracle : Nat → FetchOutcome)
    (articles : List SummarizedArticle) (i : Nat) (s : String)
    (hi : i < articles.length)
    (hs : (articles.getD i defaultSummarized).summary = .str s)
    (hfail : ∃ e, translate authKey s "ja" (tOracle i) = .error e) :
    (translateStage authKey tOracle articles).getD i defaultSummarized
        = articles.getD i defaultSummarized ∧
    (translateStage authKey tOracle articles).length = articles.length := by
  refine ⟨?_, translateStage_length authKey tOracle articles⟩
  rw [translateStage_getD authKey tOracle articles i hi]
  unfold translateItem
  rw [hs]
  obtain ⟨e, he⟩ := hfail
  simp only [he]

/-- Witness for C5 at a one-article batch whose translation request hits a
transport error. -/
theorem translate_fallback_witness :
    (translateStage "dk" (fun _ => .netError)
        [⟨"A", "http://a", some 3, .str "hello"⟩]).getD 0 defaultSummarized
      = ([(⟨"A", "http://a", some 3, .str "hello"⟩ : SummarizedArticle)]).getD 0 defaultSummarized ∧
    (translateStage "dk" (fun _ => .netError)
        [⟨"A", "http://a", some 3, .str "hello"⟩]).length
      = ([(⟨"A", "http://a", some 3, .str "hello"⟩ : SummarizedArticle)]).length :=
  translate_fallback "dk" (fun _ => .netError)
    [⟨"A", "http://a", some 3, .str "hello"⟩] 0 "hello" (by decide) rfl ⟨.caught, rfl⟩

/-- C6: on a successful fetch, the feed function returns exactly the filter
of the entries by the recency predicate, which preserves relative order
(sublist of the input), keeps an entry iff it is in the input and its parsed
date is strictly within the last 24 hours, and excludes every entry whose
date fails to parse. -/
theorem recency_filter_exact (nowMs : Int) (parseDate : String → Option Int)
    (items : List FeedArticle) :
    fetchYesterdayArticlesFromTechCrunch nowMs parseDate (.success items)
        = .data (items.filter (recentPred nowMs parseDate)) ∧
    (items.filter (recentPred nowMs parseDate)).Sublist items ∧
    (∀ a, a ∈ items.filter (recentPred nowMs parseDate) ↔
        a ∈ items ∧ recentPred nowMs parseDate a = true) ∧
    (∀ a : FeedArticle, parseDate a.pubDate = none →
        a ∉ items.filter (recentPred nowMs parseDate)) ∧
    (∀ (a : FeedArticle) (t : Int), parseDate a.pubDate = some t →
        (recentPred nowMs parseDate a = true ↔ t > nowMs - ONE_DAY_MS)) := by
  refine ⟨?_, List.filter_sublist _, fun a => List.mem_filter, ?_, ?_⟩
  · unfold fetchYesterdayArticlesFromTechCrunch
    dsimp only
    congr 1
    exact List.map_id _
  · intro a hnone hmem
    have := (List.mem_filter.mp hmem).2
    rw [recentPred, hnone] at this
    cases this
  · intro a t ht
    rw [recentPred, ht]
    simp

/-- Witness for C6: a parsable in-window entry is kept, an unparsable one is
excluded. -/
theorem recency_filter_exact_witness :
    (⟨"B", "http://b", "bad"⟩ : FeedArticle) ∉
      ([⟨"A", "http://a", "good"⟩, ⟨"B", "http://b", "bad"⟩] : List FeedArticle).filter
        (recentPred 1000 (fun s => if s = "good" then some 500 else none)) :=
  (recency_filter_exact 1000 (fun s => if s = "good" then some 500 else none)
    [⟨"A", "http://a", "good"⟩, ⟨"B", "http://b", "bad"⟩]).2.2.2.1
    ⟨"B", "http://b", "bad"⟩ rfl

/-- C7: an article entering the translation stage with the absent summary is
returned identical (the whole record unchanged) and triggers no translation
request. -/
theorem translate_noop_skip (authKey : String) (tOracle : Nat → FetchOutcome)
    (articles : List SummarizedArticle) (i : Nat)
    (hi : i < articles.length)
    (habs : (articles.getD i defaultSummarized).summary = .undef) :
    (translateStage authKey tOracle articles).getD i defaultSummarized
        = articles.getD i defaultSummarized ∧
    translateItemRequest (articles.getD i defaultSummarized) = none := by
  constructor
  · rw [translateStage_getD authKey tOracle articles i hi]
    unfold translateItem
    rw [habs]
  · unfold translateItemRequest
    rw [habs]

/-- Witness for C7 at a one-article batch with the absent summary. -/
theorem translate_noop_skip_witness :
    (translateStage "dk" (fun _ => .netError)
        [⟨"A", "http://a", some 3, .undef⟩]).getD 0 defaultSummarized
      = ([(⟨"A", "http://a", some 3, .undef⟩ : SummarizedArticle)]).getD 0 defaultSummarized ∧
    translateItemRequest
        (([(⟨"A", "http://a", some 3, .undef⟩ : SummarizedArticle)]).getD 0 defaultSummarized)
      = none :=
  translate_noop_skip "dk" (fun _ => .netError)
    [⟨"A", "http://a", some 3, .undef⟩] 0 (by decide) rfl

/-- C8: `translate` is total over its error channel — for every outcome it
returns either the error or the data variant — and a response whose body
cannot be read (opaque body) always yields the error variant, never an
unhandled exception. -/
theorem translate_total_error_channel (authKey text targetLang : String)
    (outcome : FetchOutcome) :
    ((∃ e, translate authKey text targetLang outcome = .error e) ∨
      (∃ t, translate authKey text targetLang outcome = .data t)) ∧
    (∀ ok : Bool, outcome = .response ok .unreadable →
      translate authKey text targetLang outcome = .error .caught) := by
  constructor
  · cases outcome with
    | netError => exact .inl ⟨.caught, rfl⟩
    | response ok body =>
        cases ok with
        | false =>
            cases body with
            | unreadable => exact .inl ⟨.caught, rfl⟩
            | value cause => exact .inl ⟨.deepLApiError cause, rfl⟩
        | true =>
            cases body with
            | unreadable => exact .inl ⟨.caught, rfl⟩
            | value ts =>
                cases ts with
                | nil => exact .inl ⟨.caught, rfl⟩
                | cons t rest => exact .inr ⟨t, rfl⟩
  · intro ok h
    subst h
    cases ok <;> rfl

/-- Witness for C8 at a 2xx response with a non-readable body. -/
theorem translate_total_error_channel_witness :
    translate "key" "hello" "ja" (.response true .unreadable) = .error .caught :=
  (translate_total_error_channel "key" "hello" "ja" (.response true .unreadable)).2 true rfl

/-- Missing required credential makes `loadEnv` return the error variant. -/
theorem loadEnv_missing (penv : ProcEnv)
    (hmiss : penv.OPEN_AI_API_KEY = none ∨ penv.DEEPL_API_AUTH_KEY = none) :
    loadEnv penv = .error (.errorMsg "lack required envinronment variables") := by
  unfold loadEnv
  rcases hmiss with h | h
  · rw [h]
  · rw [h]
    cases hO : penv.OPEN_AI_API_KEY <;> rfl

/-- C9: when a required credential is missing from the environment, `main`
exits with code 1 and issues no network request at all. -/
theorem missing_credential_no_network (penv : ProcEnv) (nowMs : Int)
    (parseDate : String → Option Int) (feedOutcome : FeedOutcome)
    (sumOracle : Nat → ReqOutcome) (trOracle : Nat → FetchOutcome)
    (notifyOk : Nat → Bool) (dateFmt : Option Int → String)
    (hmiss : penv.OPEN_AI_API_KEY = none ∨ penv.DEEPL_API_AUTH_KEY = none) :
    (main penv nowMs parseDate feedOutcome sumOracle trOracle notifyOk dateFmt).exitCode = 1 ∧
    (main penv nowMs parseDate feedOutcome sumOracle trOracle notifyOk dateFmt).requests = [] := by
  have hl := loadEnv_missing penv hmiss
  unfold main
  rw [hl]
  exact ⟨rfl, rfl⟩

/-- Witness for C9: the OpenAI key is missing, the run exits 1 with no
requests. -/
theorem missing_credential_no_network_witness :
    (main ⟨none, some "dk", none⟩ 0 (fun _ => none) .failure (fun _ => .rejected)
        (fun _ => .netError) (fun _ => true) (fun _ => "")).exitCode = 1 ∧
    (main ⟨none, some "dk", none⟩ 0 (fun _ => none) .failure (fun _ => .rejected)
        (fun _ => .netError) (fun _ => true) (fun _ => "")).requests = [] :=
  missing_credential_no_network ⟨none, some "dk", none⟩ 0 (fun _ => none) .failure
    (fun _ => .rejected) (fun _ => .netError) (fun _ => true) (fun _ => "") (.inl rfl)

/-- C10: with a webhook URL configured, the run posts exactly one message per
article of the summarizer output — including articles with the absent
summary — and the message for an absent-summary article interpolates the
literal text "undefined" in place of the summary. -/
theorem main_notifies_every_summarized_article (penv : ProcEnv) (okey dkey url : String)
    (nowMs : Int) (parseDate : String → Option Int) (items : List FeedArticle)
    (sumOracle : Nat → ReqOutcome) (trOracle : Nat → FetchOutcome)
    (notifyOk : Nat → Bool) (dateFmt : Option Int → String)
    (h1 : penv.OPEN_AI_API_KEY = some okey)
    (h2 : penv.DEEPL_API_AUTH_KEY = some dkey)
    (h3 : penv.DISCORD_WEBHOOK_URL = some url) :
    webhookPosts (main penv nowMs parseDate (.success items) sumOracle trOracle
        notifyOk dateFmt).requests
      = (summarizeOut parseDate sumOracle
          ((items.filter (recentPred nowMs parseDate)).map
            (fun item => { title := item.title, link := item.link, pubDate := item.pubDate }))).map
          (fun a => (url, notifyContent dateFmt a)) ∧
    (∀ a : SummarizedArticle, a.summary = .undef →
      notifyContent dateFmt a = "[" ++ a.title ++ "](" ++ a.link ++ ") - Posted at "
        ++ dateFmt a.pubDate ++ "\n" ++ "undefined") := by
  have hl : loadEnv penv = .data ⟨okey, dkey, penv.DISCORD_WEBHOOK_URL⟩ := by
    unfold loadEnv
    rw [h1, h2]
  constructor
  · unfold main
    rw [hl]
    dsimp only
    unfold fetchYesterdayArticlesFromTechCrunch
    dsimp only
    rw [summarize_eq]
    dsimp only
    rw [h3]
    dsimp only
    simp [webhookPosts, webhookPosts_append, webhookPosts_map_completion,
      webhookPosts_map_translation, webhookPosts_map_post]
  · intro a h
    unfold notifyContent
    rw [h]
    rfl

def c10penv : ProcEnv := ⟨some "ok", some "dk", some "http://wh"⟩

/-- Witness for C10: one article whose summarization failed still yields one
webhook post, whose content ends in the literal "undefined". -/
theorem main_notifies_every_summarized_article_witness :
    webhookPosts (main c10penv 1000 (fun _ => some 500) (.success [⟨"A", "http://a", "da"⟩])
        (fun _ => .rejected) (fun _ => .netError) (fun _ => true) (fun _ => "date")).requests
      = [("http://wh", "[A](http://a) - Posted at date\nundefined")] := by
  have h := (main_notifies_every_summarized_article c10penv "ok" "dk" "http://wh" 1000
    (fun _ => some 500) [⟨"A", "http://a", "da"⟩] (fun _ => .rejected) (fun _ => .netError)
    (fun _ => true) (fun _ => "date") rfl rfl rfl).1
  rw [h]
  rfl

def c4penv : ProcEnv := ⟨some "okey", some "dkey", some "http://discord.example/wh"⟩

/-- Run of `main` in which the single article is summarized successfully as
"hello" and its translation succeeds, returning "konnichiwa". -/
def c4trace : MainTrace :=
  main c4penv 1000 (fun _ => some 500) (.success [⟨"A", "http://a", "da"⟩])
    (fun _ => .fulfilled (some "hello")) (fun _ => .response true (.value ["konnichiwa"]))
    (fun _ => true) (fun _ => "date")

/-- C4 (code bug): the notification step maps over the summarizer output, not
over the translation stage output — with a configured webhook and a
successful translation, the notified article still carries the untranslated
summary "hello" while the printed (finalized) list carries "konnichiwa", and
the posted webhook content embeds the untranslated text. -/
theorem main_notifies_pretranslation_output :
    c4trace.notified ≠ c4trace.printed ∧
    (c4trace.notified.getD 0 defaultSummarized).summary = .str "hello" ∧
    (c4trace.printed.getD 0 defaultSummarized).summary = .str "konnichiwa" ∧
    webhookPosts c4trace.requests
      = [("http://discord.example/wh", "[A](http://a) - Posted at date\nhello")] := by
  refine ⟨by decide, rfl, rfl, rfl⟩

end TCSum
